import Mathlib

/-!
Verification of the resource pool and admission-control layer of the
html2pdf backend (class BrowserPoolService in src/pdf/services/pdf.service.ts).

The service is single-threaded JavaScript: every synchronous code segment runs
atomically.  We embed the state of the service as a record and each method as a
pure function on that record.  External I/O (puppeteer calls) is modelled by
its bookkeeping effect; fallible external calls (session reset) take a Boolean
outcome parameter.  A labelled transition system over the state captures the
interleavings of concurrent requests: each event corresponds to one
synchronous segment of the source.  Ghost fields (request ids, a holder map,
fresh-id counters) are added for specification purposes only and are never
read by the embedded source functions.
-/

namespace BrowserPool

/-- this.maxBrowsers in the source (3). -/
def maxBrowsers : Nat := 3

/-- this.maxPagesPerBrowser in the source (8). -/
def maxPagesPerBrowser : Nat := 8

/-- this.maxConcurrentRequests in the source (10). -/
def maxConcurrentRequests : Nat := 10

/-- this.pagePoolSize in the source (8): capacity bound of the page pool. -/
def pagePoolSize : Nat := 8

/-- this.maxPageAge in the source (5 minutes in milliseconds). -/
def maxPageAge : Nat := 5 * 60 * 1000

/-- interface BrowserInstance of the source.  The id is a natural number
standing for the unique string id (browser index plus creation time).
isConnected models browser.isConnected() of the underlying puppeteer object:
true until the browser disconnects. -/
structure BrowserInstance where
  id : Nat
  activePages : Nat
  createdAt : Nat
  lastUsed : Nat
  isHealthy : Bool
  isConnected : Bool
deriving DecidableEq, Repr

/-- interface PagePoolItem of the source.  pageId is a natural number standing
for the unique string id of the entry; the page object itself is identified by
the same number. -/
structure PagePoolItem where
  pageId : Nat
  createdAt : Nat
  lastUsed : Nat
  isLocked : Bool
deriving DecidableEq, Repr

/-- Registry entry for a puppeteer Page created by the service: which browser
created it (page.browser()) and whether page.isClosed() is true.  The owner
field is ghost information used only to state claims about the owning
browser. -/
structure PageObj where
  pageId : Nat
  ownerBrowser : Nat
  closed : Bool
deriving DecidableEq, Repr

/-- The mutable fields of BrowserPoolService, plus ghost bookkeeping.
requestQueue holds the pending requests of the source (this.requestQueue) in
arrival order, each represented by its arrival index (the resolve callback and
timestamp of a PendingRequest are represented by that index).  Ghost fields:
running is the set of requests currently holding an admission slot, nextId is
the arrival counter, holders maps a pooled page id to the request currently
holding it, pages is the registry of created pages, nextPage and nextBrowser
generate fresh ids. -/
structure ServiceState where
  browsers : List BrowserInstance
  activeRequests : Nat
  requestQueue : List Nat
  pagePool : List PagePoolItem
  pages : List PageObj
  running : List Nat
  holders : List (Nat × Nat)
  nextId : Nat
  nextPage : Nat
  nextBrowser : Nat
deriving DecidableEq, Repr

/-- createBrowserInstance of the source: a fresh healthy browser with zero
active pages. -/
def createBrowserInstance (id now : Nat) : BrowserInstance :=
  { id := id, activePages := 0, createdAt := now, lastUsed := now,
    isHealthy := true, isConnected := true }

/-- State after initializeBrowsers: maxBrowsers fresh browser instances,
empty pool, empty queue, no active requests. -/
def initialState (now : Nat) : ServiceState :=
  { browsers := [createBrowserInstance 0 now, createBrowserInstance 1 now,
                 createBrowserInstance 2 now],
    activeRequests := 0, requestQueue := [], pagePool := [], pages := [],
    running := [], holders := [], nextId := 0, nextPage := 0, nextBrowser := 3 }

/-- The decrement loop that appears in the page close handler of
configurePage, in closePage and in removePageFromPool: iterate over
this.browsers and decrement activePages of the FIRST browser whose underlying
browser isConnected(), then break.  Math.max(0, n - 1) is truncated natural
subtraction. -/
def decActiveFirstConnected : List BrowserInstance → List BrowserInstance
  | [] => []
  | b :: bs =>
    if b.isConnected then
      { b with activePages := b.activePages - 1 } :: bs
    else
      b :: decActiveFirstConnected bs

/-- Generic model of indexOf followed by splice(index, 1): remove the first
element satisfying the predicate, keep everything else. -/
def removeFirstBy (p : α → Bool) : List α → List α
  | [] => []
  | x :: xs => if p x then xs else x :: removeFirstBy p xs

/-- getPooledPage of the source, on the pool list: findIndex of the first
entry with isLocked false and now - lastUsed < maxPageAge, then mutate that
entry to isLocked true, lastUsed now, and return its page.  (In JavaScript a
negative now - lastUsed also satisfies the age test; truncated natural
subtraction gives 0 and agrees.) -/
def lockFirstAvailable (now : Nat) : List PagePoolItem → Option (Nat × List PagePoolItem)
  | [] => none
  | item :: rest =>
    if item.isLocked = false ∧ now - item.lastUsed < maxPageAge then
      some (item.pageId, { item with isLocked := true, lastUsed := now } :: rest)
    else
      match lockFirstAvailable now rest with
      | none => none
      | some (pid, rest') => some (pid, item :: rest')

/-- getPooledPage of the source lifted to the service state. -/
def getPooledPage (now : Nat) (s : ServiceState) : Option Nat × ServiceState :=
  match lockFirstAvailable now s.pagePool with
  | none => (none, s)
  | some (pid, pool') => (some pid, { s with pagePool := pool' })

/-- Whether page.isClosed() holds for the given page id (a page not in the
registry is treated as closed, so nothing is done to it). -/
def isPageClosed (s : ServiceState) (pid : Nat) : Bool :=
  match s.pages.find? (fun p => p.pageId == pid) with
  | some p => p.closed
  | none => true

/-- The effect of await page.close(): the page becomes closed, and the close
handler registered in configurePage fires, which decrements activePages of the
first connected browser (its comment says it finds the browser the page
belongs to, but the loop breaks at the first connected browser). -/
def pageCloseEffects (s : ServiceState) (pid : Nat) : ServiceState :=
  let pages' := s.pages.map fun p => if p.pageId == pid then { p with closed := true } else p
  { s with pages := pages', browsers := decActiveFirstConnected s.browsers }

/-- The shared close sequence of closePage and removePageFromPool: if
page.isClosed() is false, await page.close() — which fires the close handler
of configurePage — and then run the explicit decrement loop; a closed page is
left alone. -/
def closeOpenPage (s : ServiceState) (pid : Nat) : ServiceState :=
  if isPageClosed s pid then s
  else { pageCloseEffects s pid with
         browsers := decActiveFirstConnected (pageCloseEffects s pid).browsers }

/-- removePageFromPool of the source: splice the item out of this.pagePool,
then, if the page is not closed, await page.close() (which fires the close
handler) and afterwards run the explicit decrement loop. -/
def removePageFromPool (s : ServiceState) (pid : Nat) : ServiceState :=
  closeOpenPage { s with pagePool := removeFirstBy (fun item => item.pageId == pid) s.pagePool } pid

/-- returnPageToPool of the source: resetPageForReuse is an external call
whose outcome is the resetOk parameter.  On success the entry is unlocked and
lastUsed updated; on failure the entry is removed from the pool and closed. -/
def returnPageToPool (s : ServiceState) (pid : Nat) (resetOk : Bool) (now : Nat) : ServiceState :=
  if resetOk then
    let pool' := s.pagePool.map fun item =>
      if item.pageId == pid then { item with isLocked := false, lastUsed := now } else item
    { s with pagePool := pool' }
  else
    removePageFromPool s pid

/-- closePage of the source: if the page is a pool member, return it to the
pool; otherwise, if it is not closed, await page.close() (close handler fires)
and run the explicit decrement loop.  Note that closePage never touches
this.activeRequests or this.requestQueue. -/
def closePage (s : ServiceState) (pid : Nat) (resetOk : Bool) (now : Nat) : ServiceState :=
  if s.pagePool.any (fun item => item.pageId == pid) then
    returnPageToPool s pid resetOk now
  else
    closeOpenPage s pid

/-- cleanupPagePool of the source: collect the entries with age > maxPageAge,
or idle > maxPageAge while unlocked, then removePageFromPool each of them. -/
def cleanupPagePool (now : Nat) (s : ServiceState) : ServiceState :=
  let stale := s.pagePool.filter
    (fun item => decide (maxPageAge < now - item.createdAt) ||
                 (decide (maxPageAge < now - item.lastUsed) && !item.isLocked))
  stale.foldl (fun acc item => removePageFromPool acc item.pageId) s

/-- The reduce callback of selectBestBrowser:
(best, current) => current.activePages < best.activePages ? current : best,
folded over the tail with the head as the initial accumulator, exactly as
Array.prototype.reduce does.  It keeps the earlier element on ties. -/
def reduceBest (b : BrowserInstance) : List BrowserInstance → BrowserInstance
  | [] => b
  | c :: cs => reduceBest (if c.activePages < b.activePages then c else b) cs

/-- selectBestBrowser of the source: filter this.browsers to the healthy ones
and reduce to the one with the least activePages. -/
def selectBestBrowser (browsers : List BrowserInstance) : Option BrowserInstance :=
  match browsers.filter (fun b => b.isHealthy) with
  | [] => none
  | b :: bs => some (reduceBest b bs)

/-- replaceUnhealthyBrowser of the source, on the happy path of its external
calls: close the old browser, splice it out of this.browsers (indexOf finds
the first occurrence) and push a fresh browser instance. -/
def replaceUnhealthyBrowser (now : Nat) (s : ServiceState) (b : BrowserInstance) : ServiceState :=
  let browsers' := removeFirstBy (fun c => c == b) s.browsers ++
    [createBrowserInstance s.nextBrowser now]
  { s with browsers := browsers', nextBrowser := s.nextBrowser + 1 }

/-- Outcome of createNewPage: a page id together with how many times the
selection was retried after a worker replacement, or the no-healthy-browsers
error, or fuel exhaustion of the embedding. -/
inductive CreateOutcome where
  | ok (pid retries : Nat)
  | noHealthy (retries : Nat)
  | outOfFuel
deriving DecidableEq, Repr

/-- Count one more selection retry in an outcome. -/
def CreateOutcome.bump : CreateOutcome → CreateOutcome
  | .ok p n => .ok p (n + 1)
  | .noHealthy n => .noHealthy (n + 1)
  | .outOfFuel => .outOfFuel

/-- createNewPage of the source, with fuel for its recursion (the source
recurses after replacing a browser that is at maxPagesPerBrowser).  On the
non-recursive path: select the best browser (throwing the no-healthy-browsers
error when none), create a page on it (activePages incremented, lastUsed
updated), and insert the page into the pool locked when the pool has room.
The ghost parameter r records which request receives the page, and the fresh
page id is drawn from the nextPage counter. -/
def createNewPageFuel (r now : Nat) : Nat → ServiceState → CreateOutcome × ServiceState
  | 0, s => (.outOfFuel, s)
  | fuel + 1, s =>
    match selectBestBrowser s.browsers with
    | none => (.noHealthy 0, s)
    | some best =>
      if maxPagesPerBrowser ≤ best.activePages then
        let out := createNewPageFuel r now fuel (replaceUnhealthyBrowser now s best)
        (out.1.bump, out.2)
      else
        let pid := s.nextPage
        let browsers' := s.browsers.map fun b =>
          if b.id == best.id then { b with activePages := b.activePages + 1, lastUsed := now } else b
        let pages' := s.pages ++ [{ pageId := pid, ownerBrowser := best.id, closed := false }]
        if s.pagePool.length < pagePoolSize then
          let pool' := s.pagePool ++ [{ pageId := pid, createdAt := now, lastUsed := now, isLocked := true }]
          let holders' := s.holders ++ [(pid, r)]
          (.ok pid 0,
           { s with browsers := browsers', pages := pages', pagePool := pool',
                    holders := holders', nextPage := pid + 1 })
        else
          (.ok pid 0,
           { s with browsers := browsers', pages := pages', nextPage := pid + 1 })

/-- Events of the transition system.  Each event is one synchronous segment
of the single-threaded source.  arrive is the entry of getPage (the
concurrency check followed by either queueing or admission); lockPooled is a
granted request running getPooledPage; create is a granted request running
createNewPage; finish is the finally block of getPage, which releases the
admission slot and runs processNextQueuedRequest — in the source the queued
request taken there re-enters getPage synchronously, so its re-check of the
concurrency ceiling happens in the same segment and always admits it, which is
why finish grants the dequeued head atomically.  close is a caller releasing a
page through closePage (resetOk is the outcome of the external reset call);
cleanup is one run of cleanupPagePool; disconnect is the browser disconnected
event, which marks the browser unhealthy (its connection is gone). -/
inductive Ev where
  | arrive
  | lockPooled (r now : Nat)
  | create (r now fuel : Nat)
  | finish (r : Nat)
  | close (r pid : Nat) (resetOk : Bool) (now : Nat)
  | cleanup (now : Nat)
  | disconnect (bid : Nat)
deriving DecidableEq, Repr

/-- One step of the service.  Returns the new state together with the list of
requests granted an admission slot during the step.  Page releases are
well behaved: a pooled page is released by the request recorded as holding it
(the holders ghost map); requests run getPage bodies only while they hold a
slot. -/
def serviceStep (s : ServiceState) : Ev → ServiceState × List Nat
  | .arrive =>
    if maxConcurrentRequests ≤ s.activeRequests then
      ({ s with requestQueue := s.requestQueue ++ [s.nextId], nextId := s.nextId + 1 }, [])
    else
      ({ s with activeRequests := s.activeRequests + 1,
                running := s.running ++ [s.nextId], nextId := s.nextId + 1 }, [s.nextId])
  | .lockPooled r now =>
    if r ∈ s.running then
      match getPooledPage now s with
      | (none, _) => (s, [])
      | (some pid, s1) => ({ s1 with holders := s1.holders ++ [(pid, r)] }, [])
    else (s, [])
  | .create r now fuel =>
    if r ∈ s.running then
      ((createNewPageFuel r now fuel s).2, [])
    else (s, [])
  | .finish r =>
    if r ∈ s.running then
      let s1 := { s with running := s.running.erase r,
                         activeRequests := s.activeRequests - 1 }
      match s1.requestQueue with
      | [] => (s1, [])
      | q :: qs =>
        if s1.activeRequests < maxConcurrentRequests then
          ({ s1 with requestQueue := qs, activeRequests := s1.activeRequests + 1,
                     running := s1.running ++ [q] }, [q])
        else (s1, [])
    else (s, [])
  | .close r pid resetOk now =>
    if (pid, r) ∈ s.holders ∨ ∀ item ∈ s.pagePool, item.pageId ≠ pid then
      let s1 := closePage s pid resetOk now
      ({ s1 with holders := s1.holders.filter (fun h => h.1 ≠ pid) }, [])
    else (s, [])
  | .cleanup now =>
    let s1 := cleanupPagePool now s
    let holders' := s1.holders.filter fun h =>
      s1.pagePool.any (fun item => item.pageId == h.1)
    ({ s1 with holders := holders' }, [])
  | .disconnect bid =>
    let browsers' := s.browsers.map fun b =>
      if b.id == bid then { b with isHealthy := false, isConnected := false } else b
    ({ s with browsers := browsers' }, [])

/-- The states reachable from a freshly initialized service by any
interleaving of events. -/
inductive Reachable : ServiceState → Prop
  | init (now : Nat) : Reachable (initialState now)
  | next (s : ServiceState) (e : Ev) : Reachable s → Reachable (serviceStep s e).1

/-- Number of holder entries recorded for a page id. -/
def holderCount (hs : List (Nat × Nat)) (pid : Nat) : Nat :=
  (hs.filter (fun h => h.1 = pid)).length

/-! ### List helper lemmas -/

theorem removeFirstBy_sublist (p : α → Bool) (l : List α) :
    (removeFirstBy p l).Sublist l := by
  induction l with
  | nil => exact List.Sublist.refl _
  | cons x xs ih =>
    simp only [removeFirstBy]
    split
    · exact (List.Sublist.refl xs).cons x
    · exact ih.cons₂ x

theorem mem_removeFirstBy_of_mem (p : α → Bool) {l : List α} {a : α}
    (ha : a ∈ l) (hpa : p a = false) : a ∈ removeFirstBy p l := by
  induction l with
  | nil => cases ha
  | cons x xs ih =>
    simp only [removeFirstBy]
    rcases List.mem_cons.mp ha with rfl | hxs
    · rw [hpa]
      exact List.mem_cons_self a _
    · split
      · exact hxs
      · exact List.mem_cons_of_mem x (ih hxs)

theorem holderCount_append (hs : List (Nat × Nat)) (h : Nat × Nat) (pid : Nat) :
    holderCount (hs ++ [h]) pid =
      holderCount hs pid + (if h.1 = pid then 1 else 0) := by
  simp only [holderCount, List.filter_append]
  split <;> rename_i hcase <;> simp [List.filter, hcase]

theorem holderCount_cons (x : Nat × Nat) (hs : List (Nat × Nat)) (pid : Nat) :
    holderCount (x :: hs) pid = holderCount hs pid + (if x.1 = pid then 1 else 0) := by
  unfold holderCount
  rw [List.filter_cons]
  by_cases hx : x.1 = pid
  · rw [if_pos (by simp [hx]), if_pos hx]
    simp [Nat.add_comm]
  · rw [if_neg (by simp [hx]), if_neg hx, Nat.add_zero]

theorem holderCount_eq_zero (hs : List (Nat × Nat)) (pid : Nat)
    (h : ∀ x ∈ hs, x.1 ≠ pid) : holderCount hs pid = 0 := by
  simp only [holderCount, List.length_eq_zero, List.filter_eq_nil_iff]
  intro x hx
  simp [h x hx]

theorem holderCount_filter_le (q : Nat × Nat → Bool) (hs : List (Nat × Nat)) (pid : Nat) :
    holderCount (hs.filter q) pid ≤ holderCount hs pid :=
  (((List.filter_sublist hs).filter _).length_le)

theorem holderCount_filter_ne_self (hs : List (Nat × Nat)) (pid : Nat) :
    holderCount (hs.filter (fun h => h.1 ≠ pid)) pid = 0 := by
  apply holderCount_eq_zero
  intro x hx
  have := (List.mem_filter.mp hx).2
  simpa using this

theorem holderCount_filter_ne_other (hs : List (Nat × Nat)) (q pid : Nat)
    (hne : pid ≠ q) :
    holderCount (hs.filter (fun h => h.1 ≠ q)) pid = holderCount hs pid := by
  induction hs with
  | nil => rfl
  | cons x xs ih =>
    rw [List.filter_cons]
    by_cases hx1 : x.1 = q
    · rw [if_neg (by simp [hx1])]
      have hx2 : ¬ (x.1 = pid) := by
        rw [hx1]; exact fun hh => hne hh.symm
      rw [ih, holderCount_cons, if_neg hx2, Nat.add_zero]
    · rw [if_pos (by simp [hx1])]
      rw [holderCount_cons, holderCount_cons, ih]

/-- Characterization of getPooledPage: the source locates the first unlocked,
fresh entry and locks it in place; everything else is untouched. -/
theorem lockFirstAvailable_eq (now : Nat) (pool : List PagePoolItem)
    {pid : Nat} {pool' : List PagePoolItem}
    (h : lockFirstAvailable now pool = some (pid, pool')) :
    ∃ l1 item l2, pool = l1 ++ item :: l2 ∧
      pool' = l1 ++ { item with isLocked := true, lastUsed := now } :: l2 ∧
      item.isLocked = false ∧ item.pageId = pid := by
  induction pool generalizing pid pool' with
  | nil => simp [lockFirstAvailable] at h
  | cons x xs ih =>
    simp only [lockFirstAvailable] at h
    split at h
    · rename_i hcond
      injection h with h
      injection h with h1 h2
      exact ⟨[], x, xs, by simp, by simp [h2.symm], hcond.1, h1⟩
    · rename_i hcond
      cases hrec : lockFirstAvailable now xs with
      | none => rw [hrec] at h; cases h
      | some v =>
        obtain ⟨pid0, rest'⟩ := v
        rw [hrec] at h
        injection h with h
        injection h with h1 h2
        subst h1
        obtain ⟨l1, item, l2, e1, e2, e3, e4⟩ := ih hrec
        exact ⟨x :: l1, item, l2, by simp [e1], by simp [h2.symm, e2], e3, e4⟩

/-! ### selectBestBrowser characterization -/

/-- The reduce in selectBestBrowser keeps the first-encountered browser among
those with minimal activePages: the result is a member, it is minimal, and it
is the first element whose activePages does not exceed the minimum. -/
theorem reduceBest_spec (bs : List BrowserInstance) (b : BrowserInstance) :
    reduceBest b bs ∈ b :: bs ∧
    (∀ c ∈ b :: bs, (reduceBest b bs).activePages ≤ c.activePages) ∧
    (b :: bs).find? (fun c => decide (c.activePages ≤ (reduceBest b bs).activePages)) =
      some (reduceBest b bs) := by
  induction bs generalizing b with
  | nil =>
    refine ⟨List.mem_cons_self _ _, ?_, ?_⟩
    · intro c hc
      rcases List.mem_cons.mp hc with rfl | h
      · exact le_refl _
      · cases h
    · exact List.find?_cons_of_pos _ (by simp [reduceBest])
  | cons c cs ih =>
    by_cases hc : c.activePages < b.activePages
    · have e : reduceBest b (c :: cs) = reduceBest c cs := by
        simp [reduceBest, if_pos hc]
      rw [e]
      obtain ⟨m1, m2, m3⟩ := ih c
      refine ⟨List.mem_cons_of_mem b m1, ?_, ?_⟩
      · intro d hd
        rcases List.mem_cons.mp hd with h | hd
        · rw [h]
          exact le_of_lt (lt_of_le_of_lt (m2 c (List.mem_cons_self c cs)) hc)
        · exact m2 d hd
      · have hb : ¬ (b.activePages ≤ (reduceBest c cs).activePages) := by
          intro hle
          exact absurd (lt_of_le_of_lt (m2 c (List.mem_cons_self c cs)) hc)
            (not_lt.mpr hle)
        rw [List.find?_cons_of_neg _ (by simpa using hb)]
        exact m3
    · have e : reduceBest b (c :: cs) = reduceBest b cs := by
        simp [reduceBest, if_neg hc]
      rw [e]
      obtain ⟨m1, m2, m3⟩ := ih b
      have hbc : b.activePages ≤ c.activePages := not_lt.mp hc
      refine ⟨?_, ?_, ?_⟩
      · rcases List.mem_cons.mp m1 with h | h
        · rw [h]; exact List.mem_cons_self _ _
        · exact List.mem_cons_of_mem b (List.mem_cons_of_mem c h)
      · intro d hd
        rcases List.mem_cons.mp hd with h | hd
        · rw [h]; exact m2 b (List.mem_cons_self b cs)
        · rcases List.mem_cons.mp hd with h | hd
          · rw [h]; exact le_trans (m2 b (List.mem_cons_self b cs)) hbc
          · exact m2 d (List.mem_cons_of_mem b hd)
      · by_cases hb : b.activePages ≤ (reduceBest b cs).activePages
        · rw [List.find?_cons_of_pos _ (by simpa using hb)]
          rw [List.find?_cons_of_pos _ (by simpa using hb)] at m3
          exact m3
        · have hcb : ¬ (c.activePages ≤ (reduceBest b cs).activePages) := by
            intro hle
            exact hb (le_trans hbc hle)
          rw [List.find?_cons_of_neg _ (by simpa using hb)]
          rw [List.find?_cons_of_neg _ (by simpa using hcb)]
          rw [List.find?_cons_of_neg _ (by simpa using hb)] at m3
          exact m3

/-- selectBestBrowser returns a healthy member whose activePages is minimal
among all healthy browsers, and among the healthy browsers in iteration order
it is the first one attaining that minimum. -/
theorem selectBestBrowser_spec (bs : List BrowserInstance) (b : BrowserInstance)
    (h : selectBestBrowser bs = some b) :
    b.isHealthy = true ∧ b ∈ bs ∧
    (∀ c ∈ bs, c.isHealthy = true → b.activePages ≤ c.activePages) ∧
    (bs.filter (fun c => c.isHealthy)).find?
      (fun c => decide (c.activePages ≤ b.activePages)) = some b := by
  unfold selectBestBrowser at h
  cases hf : bs.filter (fun c => c.isHealthy) with
  | nil => rw [hf] at h; cases h
  | cons x xs =>
    rw [hf] at h
    injection h with h
    obtain ⟨m1, m2, m3⟩ := reduceBest_spec xs x
    rw [h] at m1 m2 m3
    have hmem : b ∈ bs.filter (fun c => c.isHealthy) := hf ▸ m1
    have hb := List.mem_filter.mp hmem
    refine ⟨by simpa using hb.2, hb.1, ?_, ?_⟩
    · intro c hc hhc
      exact m2 c (hf ▸ List.mem_filter.mpr ⟨hc, by simpa using hhc⟩)
    · exact m3

/-- If some healthy browser exists, selectBestBrowser succeeds. -/
theorem selectBestBrowser_isSome (bs : List BrowserInstance) (c : BrowserInstance)
    (hc : c ∈ bs) (hh : c.isHealthy = true) :
    ∃ b, selectBestBrowser bs = some b := by
  unfold selectBestBrowser
  cases hf : bs.filter (fun x => x.isHealthy) with
  | nil =>
    exfalso
    have : c ∈ bs.filter (fun x => x.isHealthy) :=
      List.mem_filter.mpr ⟨hc, by simpa using hh⟩
    rw [hf] at this
    cases this
  | cons x xs => exact ⟨_, rfl⟩

/-! ### Effect lemmas for the release and sweep paths -/

theorem closeOpenPage_eq (s : ServiceState) (pid : Nat) :
    (closeOpenPage s pid).activeRequests = s.activeRequests ∧
    (closeOpenPage s pid).requestQueue = s.requestQueue ∧
    (closeOpenPage s pid).running = s.running ∧
    (closeOpenPage s pid).holders = s.holders ∧
    (closeOpenPage s pid).nextId = s.nextId ∧
    (closeOpenPage s pid).nextPage = s.nextPage ∧
    (closeOpenPage s pid).pagePool = s.pagePool := by
  unfold closeOpenPage pageCloseEffects
  split <;> simp

theorem removePageFromPool_eq (s : ServiceState) (pid : Nat) :
    (removePageFromPool s pid).activeRequests = s.activeRequests ∧
    (removePageFromPool s pid).requestQueue = s.requestQueue ∧
    (removePageFromPool s pid).running = s.running ∧
    (removePageFromPool s pid).holders = s.holders ∧
    (removePageFromPool s pid).nextId = s.nextId ∧
    (removePageFromPool s pid).nextPage = s.nextPage ∧
    (removePageFromPool s pid).pagePool =
      removeFirstBy (fun item => item.pageId == pid) s.pagePool := by
  unfold removePageFromPool
  exact closeOpenPage_eq _ pid

/-- closePage changes only the page pool, the page registry and the browser
counters: the admission state (activeRequests, requestQueue) and all counters
of the admission controller are untouched. -/
theorem closePage_adm (s : ServiceState) (pid : Nat) (ok : Bool) (now : Nat) :
    (closePage s pid ok now).activeRequests = s.activeRequests ∧
    (closePage s pid ok now).requestQueue = s.requestQueue ∧
    (closePage s pid ok now).running = s.running ∧
    (closePage s pid ok now).holders = s.holders ∧
    (closePage s pid ok now).nextId = s.nextId ∧
    (closePage s pid ok now).nextPage = s.nextPage := by
  unfold closePage returnPageToPool
  split
  · split
    · simp
    · obtain ⟨a1, a2, a3, a4, a5, a6, _⟩ := removePageFromPool_eq s pid
      exact ⟨a1, a2, a3, a4, a5, a6⟩
  · obtain ⟨a1, a2, a3, a4, a5, a6, _⟩ := closeOpenPage_eq s pid
    exact ⟨a1, a2, a3, a4, a5, a6⟩

theorem closePage_pool_member_ok (s : ServiceState) (pid now : Nat)
    (hmem : s.pagePool.any (fun item => item.pageId == pid) = true) :
    (closePage s pid true now).pagePool = s.pagePool.map
      (fun item => if item.pageId == pid then { item with isLocked := false, lastUsed := now } else item) := by
  unfold closePage returnPageToPool
  rw [if_pos hmem, if_pos rfl]

theorem closePage_pool_member_fail (s : ServiceState) (pid now : Nat)
    (hmem : s.pagePool.any (fun item => item.pageId == pid) = true) :
    (closePage s pid false now).pagePool =
      removeFirstBy (fun item => item.pageId == pid) s.pagePool := by
  unfold closePage returnPageToPool
  rw [if_pos hmem]
  simp only [Bool.false_eq_true, if_false]
  exact (removePageFromPool_eq s pid).2.2.2.2.2.2

theorem closePage_pool_nonmember (s : ServiceState) (pid now : Nat) (ok : Bool)
    (hmem : ¬ s.pagePool.any (fun item => item.pageId == pid) = true) :
    (closePage s pid ok now).pagePool = s.pagePool := by
  unfold closePage
  rw [if_neg hmem]
  exact (closeOpenPage_eq s pid).2.2.2.2.2.2

theorem foldl_removePage_spec (items : List PagePoolItem) (s0 : ServiceState) :
    (items.foldl (fun acc item => removePageFromPool acc item.pageId) s0).activeRequests = s0.activeRequests ∧
    (items.foldl (fun acc item => removePageFromPool acc item.pageId) s0).requestQueue = s0.requestQueue ∧
    (items.foldl (fun acc item => removePageFromPool acc item.pageId) s0).running = s0.running ∧
    (items.foldl (fun acc item => removePageFromPool acc item.pageId) s0).holders = s0.holders ∧
    (items.foldl (fun acc item => removePageFromPool acc item.pageId) s0).nextId = s0.nextId ∧
    (items.foldl (fun acc item => removePageFromPool acc item.pageId) s0).nextPage = s0.nextPage ∧
    ((items.foldl (fun acc item => removePageFromPool acc item.pageId) s0).pagePool).Sublist s0.pagePool := by
  induction items generalizing s0 with
  | nil => exact ⟨rfl, rfl, rfl, rfl, rfl, rfl, List.Sublist.refl _⟩
  | cons x xs ih =>
    simp only [List.foldl_cons]
    obtain ⟨a1, a2, a3, a4, a5, a6, a7⟩ := ih (removePageFromPool s0 x.pageId)
    obtain ⟨b1, b2, b3, b4, b5, b6, b7⟩ := removePageFromPool_eq s0 x.pageId
    refine ⟨a1.trans b1, a2.trans b2, a3.trans b3, a4.trans b4, a5.trans b5, a6.trans b6, ?_⟩
    refine a7.trans ?_
    rw [b7]
    exact removeFirstBy_sublist _ _

theorem cleanupPagePool_spec (now : Nat) (s : ServiceState) :
    (cleanupPagePool now s).activeRequests = s.activeRequests ∧
    (cleanupPagePool now s).requestQueue = s.requestQueue ∧
    (cleanupPagePool now s).running = s.running ∧
    (cleanupPagePool now s).holders = s.holders ∧
    (cleanupPagePool now s).nextId = s.nextId ∧
    (cleanupPagePool now s).nextPage = s.nextPage ∧
    ((cleanupPagePool now s).pagePool).Sublist s.pagePool :=
  foldl_removePage_spec _ s

/-- The pageId projection is unchanged by the unlock update of
returnPageToPool. -/
theorem pids_map_unlock (pool : List PagePoolItem) (pid now : Nat) :
    (pool.map (fun item => if item.pageId == pid then { item with isLocked := false, lastUsed := now } else item)).map
        PagePoolItem.pageId = pool.map PagePoolItem.pageId := by
  induction pool with
  | nil => rfl
  | cons x xs ih =>
    by_cases hx : (x.pageId == pid) = true
    · simp only [List.map_cons, ih, if_pos hx]
    · simp only [List.map_cons, ih, if_neg hx]

/-! ### The inductive invariant -/

/-- The inductive invariant of the pool service over all reachable states.
act_le and queue_full describe the admission controller; queue_sorted and
queue_lt say that the pending queue lists arrival indices in arrival order;
run_len ties activeRequests to the granted requests; pool_le bounds the page
pool; pids_lt, pids_nodup say that pool entry ids are fresh and distinct;
holders_pids, holder_le and unlocked_free say that holder records point at
pool entries, that no entry has two holders, and that unlocked entries have
none. -/
structure Inv (s : ServiceState) : Prop where
  act_le : s.activeRequests ≤ maxConcurrentRequests
  queue_full : s.requestQueue ≠ [] → s.activeRequests = maxConcurrentRequests
  queue_sorted : s.requestQueue.Pairwise (· < ·)
  queue_lt : ∀ q ∈ s.requestQueue, q < s.nextId
  run_len : s.activeRequests = s.running.length
  pool_le : s.pagePool.length ≤ pagePoolSize
  pids_lt : ∀ p ∈ s.pagePool.map PagePoolItem.pageId, p < s.nextPage
  pids_nodup : (s.pagePool.map PagePoolItem.pageId).Nodup
  holders_pids : ∀ h ∈ s.holders, h.1 ∈ s.pagePool.map PagePoolItem.pageId
  holder_le : ∀ item ∈ s.pagePool, holderCount s.holders item.pageId ≤ 1
  unlocked_free : ∀ item ∈ s.pagePool,
    item.isLocked = false → holderCount s.holders item.pageId = 0

theorem inv_init (now : Nat) : Inv (initialState now) := by
  constructor <;> simp [initialState, maxConcurrentRequests]

theorem inv_browsers_update (s : ServiceState) (bs' : List BrowserInstance) (nb : Nat)
    (hs : Inv s) : Inv { s with browsers := bs', nextBrowser := nb } :=
  { act_le := hs.act_le, queue_full := hs.queue_full, queue_sorted := hs.queue_sorted,
    queue_lt := hs.queue_lt, run_len := hs.run_len, pool_le := hs.pool_le,
    pids_lt := hs.pids_lt, pids_nodup := hs.pids_nodup, holders_pids := hs.holders_pids,
    holder_le := hs.holder_le, unlocked_free := hs.unlocked_free }

theorem inv_arrive (s : ServiceState) (hs : Inv s) : Inv (serviceStep s .arrive).1 := by
  by_cases h : maxConcurrentRequests ≤ s.activeRequests
  · simp only [serviceStep, if_pos h]
    refine { act_le := hs.act_le, queue_full := ?_, queue_sorted := ?_, queue_lt := ?_,
             run_len := hs.run_len, pool_le := hs.pool_le, pids_lt := hs.pids_lt,
             pids_nodup := hs.pids_nodup, holders_pids := hs.holders_pids,
             holder_le := hs.holder_le, unlocked_free := hs.unlocked_free }
    · intro _
      exact Nat.le_antisymm hs.act_le h
    · rw [List.pairwise_append]
      refine ⟨hs.queue_sorted, by simp, ?_⟩
      intro a ha b hb
      rw [List.mem_singleton.mp hb]
      exact hs.queue_lt a ha
    · intro q hq
      rcases List.mem_append.mp hq with h1 | h1
      · exact Nat.lt_succ_of_lt (hs.queue_lt q h1)
      · rw [List.mem_singleton.mp h1]
        exact Nat.lt_succ_self _
  · simp only [serviceStep, if_neg h]
    have hlt : s.activeRequests < maxConcurrentRequests := Nat.lt_of_not_le h
    refine { act_le := hlt, queue_full := ?_, queue_sorted := hs.queue_sorted, queue_lt := ?_,
             run_len := ?_, pool_le := hs.pool_le, pids_lt := hs.pids_lt,
             pids_nodup := hs.pids_nodup, holders_pids := hs.holders_pids,
             holder_le := hs.holder_le, unlocked_free := hs.unlocked_free }
    · intro hne
      exact absurd (hs.queue_full hne) (Nat.ne_of_lt hlt)
    · intro q hq
      exact Nat.lt_succ_of_lt (hs.queue_lt q hq)
    · simp [hs.run_len]

theorem inv_lock (s : ServiceState) (r now : Nat) (hs : Inv s) :
    Inv (serviceStep s (.lockPooled r now)).1 := by
  by_cases hr : r ∈ s.running
  · cases hLF : lockFirstAvailable now s.pagePool with
    | none =>
      simp only [serviceStep, getPooledPage, hLF, if_pos hr]
      exact hs
    | some v =>
      obtain ⟨pid, pool'⟩ := v
      simp only [serviceStep, getPooledPage, hLF, if_pos hr]
      obtain ⟨l1, item, l2, e1, e2, e3, e4⟩ := lockFirstAvailable_eq now s.pagePool hLF
      have pmap : pool'.map PagePoolItem.pageId = s.pagePool.map PagePoolItem.pageId := by
        rw [e1, e2]; simp
      have hitem_mem : item ∈ s.pagePool := by
        rw [e1]; exact List.mem_append_right _ (List.mem_cons_self _ _)
      have hnd := hs.pids_nodup
      rw [e1] at hnd
      simp only [List.map_append, List.map_cons] at hnd
      have h1 : item.pageId ∉ l1.map PagePoolItem.pageId := by
        intro hmem
        exact (List.disjoint_of_nodup_append hnd) hmem (List.mem_cons_self _ _)
      have h2 : item.pageId ∉ l2.map PagePoolItem.pageId :=
        (List.nodup_cons.mp (List.nodup_append.mp hnd).2.1).1
      have hsplit1 : ∀ x ∈ l1, x.pageId ≠ item.pageId := by
        intro x hx he
        exact h1 (he ▸ List.mem_map_of_mem _ hx)
      have hsplit2 : ∀ x ∈ l2, x.pageId ≠ item.pageId := by
        intro x hx he
        exact h2 (he ▸ List.mem_map_of_mem _ hx)
      have hlen : pool'.length = s.pagePool.length := by
        rw [e1, e2]; simp
      refine { act_le := hs.act_le, queue_full := hs.queue_full,
               queue_sorted := hs.queue_sorted, queue_lt := hs.queue_lt,
               run_len := hs.run_len, pool_le := ?_, pids_lt := ?_, pids_nodup := ?_,
               holders_pids := ?_, holder_le := ?_, unlocked_free := ?_ }
      · rw [hlen]; exact hs.pool_le
      · rw [pmap]; exact hs.pids_lt
      · rw [pmap]; exact hs.pids_nodup
      · intro h hm
        rcases List.mem_append.mp hm with hm1 | hm1
        · rw [pmap]; exact hs.holders_pids h hm1
        · rw [List.mem_singleton.mp hm1, pmap]
          rw [← e4]
          exact List.mem_map_of_mem _ hitem_mem
      · intro item2 hm2
        rw [e2] at hm2
        rcases List.mem_append.mp hm2 with hm1 | hm1
        · have hne : item2.pageId ≠ item.pageId := hsplit1 item2 hm1
          rw [holderCount_append, if_neg (fun he => hne (e4.trans he).symm), Nat.add_zero]
          refine hs.holder_le item2 ?_
          rw [e1]
          exact List.mem_append_left _ hm1
        · rcases List.mem_cons.mp hm1 with he | hm2'
          · have hpid : item2.pageId = pid := by
              rw [he]; exact e4
            have h0 : holderCount s.holders pid = 0 := by
              rw [← e4]; exact hs.unlocked_free item hitem_mem e3
            rw [holderCount_append, if_pos hpid.symm, hpid, h0]
          · have hne : item2.pageId ≠ item.pageId := hsplit2 item2 hm2'
            rw [holderCount_append, if_neg (fun he => hne (e4.trans he).symm), Nat.add_zero]
            refine hs.holder_le item2 ?_
            rw [e1]
            exact List.mem_append_right _ (List.mem_cons_of_mem _ hm2')
      · intro item2 hm2 hun
        rw [e2] at hm2
        rcases List.mem_append.mp hm2 with hm1 | hm1
        · have hne : item2.pageId ≠ item.pageId := hsplit1 item2 hm1
          rw [holderCount_append, if_neg (fun he => hne (e4.trans he).symm), Nat.add_zero]
          refine hs.unlocked_free item2 ?_ hun
          rw [e1]
          exact List.mem_append_left _ hm1
        · rcases List.mem_cons.mp hm1 with he | hm2'
          · rw [he] at hun
            cases hun
          · have hne : item2.pageId ≠ item.pageId := hsplit2 item2 hm2'
            rw [holderCount_append, if_neg (fun he => hne (e4.trans he).symm), Nat.add_zero]
            refine hs.unlocked_free item2 ?_ hun
            rw [e1]
            exact List.mem_append_right _ (List.mem_cons_of_mem _ hm2')
  · simp only [serviceStep, if_neg hr]
    exact hs

theorem inv_createNewPageFuel (r now fuel : Nat) (s : ServiceState) (hs : Inv s) :
    Inv (createNewPageFuel r now fuel s).2 := by
  induction fuel generalizing s with
  | zero => exact hs
  | succ n ih =>
    cases hsel : selectBestBrowser s.browsers with
    | none =>
      simp only [createNewPageFuel, hsel]
      exact hs
    | some best =>
      by_cases hcap : maxPagesPerBrowser ≤ best.activePages
      · simp only [createNewPageFuel, hsel, if_pos hcap]
        exact ih (replaceUnhealthyBrowser now s best) (inv_browsers_update s _ _ hs)
      · by_cases hlen : s.pagePool.length < pagePoolSize
        · simp only [createNewPageFuel, hsel, if_neg hcap, if_pos hlen]
          refine { act_le := hs.act_le, queue_full := hs.queue_full,
                   queue_sorted := hs.queue_sorted, queue_lt := hs.queue_lt,
                   run_len := hs.run_len, pool_le := ?_, pids_lt := ?_, pids_nodup := ?_,
                   holders_pids := ?_, holder_le := ?_, unlocked_free := ?_ }
          · simpa using hlen
          · intro p hp
            simp only [List.map_append, List.map_cons, List.map_nil] at hp
            rcases List.mem_append.mp hp with h | h
            · exact Nat.lt_succ_of_lt (hs.pids_lt p h)
            · rw [List.mem_singleton.mp h]
              exact Nat.lt_succ_self _
          · simp only [List.map_append, List.map_cons, List.map_nil]
            rw [List.nodup_append]
            refine ⟨hs.pids_nodup, by simp, ?_⟩
            intro a ha hb
            rw [List.mem_singleton.mp hb] at ha
            exact absurd (hs.pids_lt _ ha) (Nat.lt_irrefl _)
          · intro h hm
            simp only [List.map_append, List.map_cons, List.map_nil]
            rcases List.mem_append.mp hm with h1 | h1
            · exact List.mem_append_left _ (hs.holders_pids h h1)
            · rw [List.mem_singleton.mp h1]
              exact List.mem_append_right _ (List.mem_cons_self _ _)
          · intro item2 hm2
            rcases List.mem_append.mp hm2 with h1 | h1
            · have hne : ¬ (s.nextPage = item2.pageId) :=
                fun he => absurd (he ▸ hs.pids_lt item2.pageId (List.mem_map_of_mem _ h1))
                  (Nat.lt_irrefl _)
              rw [holderCount_append, if_neg hne, Nat.add_zero]
              exact hs.holder_le item2 h1
            · rw [List.mem_singleton.mp h1]
              have h0 : holderCount s.holders s.nextPage = 0 :=
                holderCount_eq_zero _ _
                  (fun x hx => Nat.ne_of_lt (hs.pids_lt _ (hs.holders_pids x hx)))
              rw [holderCount_append, if_pos rfl, h0]
          · intro item2 hm2 hun
            rcases List.mem_append.mp hm2 with h1 | h1
            · have hne : ¬ (s.nextPage = item2.pageId) :=
                fun he => absurd (he ▸ hs.pids_lt item2.pageId (List.mem_map_of_mem _ h1))
                  (Nat.lt_irrefl _)
              rw [holderCount_append, if_neg hne, Nat.add_zero]
              exact hs.unlocked_free item2 h1 hun
            · rw [List.mem_singleton.mp h1] at hun
              cases hun
        · simp only [createNewPageFuel, hsel, if_neg hcap, if_neg hlen]
          refine { act_le := hs.act_le, queue_full := hs.queue_full,
                   queue_sorted := hs.queue_sorted, queue_lt := hs.queue_lt,
                   run_len := hs.run_len, pool_le := hs.pool_le, pids_lt := ?_,
                   pids_nodup := hs.pids_nodup, holders_pids := hs.holders_pids,
                   holder_le := hs.holder_le, unlocked_free := hs.unlocked_free }
          intro p hp
          exact Nat.lt_succ_of_lt (hs.pids_lt p hp)

theorem inv_create (s : ServiceState) (r now fuel : Nat) (hs : Inv s) :
    Inv (serviceStep s (.create r now fuel)).1 := by
  by_cases hr : r ∈ s.running
  · simp only [serviceStep, if_pos hr]
    exact inv_createNewPageFuel r now fuel s hs
  · simp only [serviceStep, if_neg hr]
    exact hs

theorem maxConcurrentRequests_pos : 0 < maxConcurrentRequests := by decide

theorem inv_finish (s : ServiceState) (r : Nat) (hs : Inv s) :
    Inv (serviceStep s (.finish r)).1 := by
  by_cases hr : r ∈ s.running
  · have hlen : s.running.length = s.activeRequests := hs.run_len.symm
    have herase : (s.running.erase r).length = s.running.length - 1 :=
      List.length_erase_of_mem hr
    cases hq : s.requestQueue with
    | nil =>
      simp only [serviceStep, if_pos hr, hq]
      refine { act_le := ?_, queue_full := ?_, queue_sorted := ?_,
               queue_lt := ?_, run_len := ?_, pool_le := hs.pool_le,
               pids_lt := hs.pids_lt, pids_nodup := hs.pids_nodup,
               holders_pids := hs.holders_pids, holder_le := hs.holder_le,
               unlocked_free := hs.unlocked_free }
      · exact Nat.le_trans (Nat.sub_le _ _) hs.act_le
      · intro hne; exact absurd rfl hne
      · exact List.Pairwise.nil
      · intro p hp; cases hp
      · rw [herase, hlen]
    | cons q qs =>
      have hact : s.activeRequests = maxConcurrentRequests := by
        apply hs.queue_full
        rw [hq]
        exact List.cons_ne_nil q qs
      have hlt : s.activeRequests - 1 < maxConcurrentRequests := by
        rw [hact]
        exact Nat.sub_lt maxConcurrentRequests_pos Nat.one_pos
      have hpos : 1 ≤ s.activeRequests := by
        rw [hact]; exact maxConcurrentRequests_pos
      have hsort := hs.queue_sorted
      rw [hq] at hsort
      simp only [serviceStep, if_pos hr, hq, if_pos hlt]
      refine { act_le := ?_, queue_full := ?_, queue_sorted := ?_,
               queue_lt := ?_, run_len := ?_, pool_le := hs.pool_le,
               pids_lt := hs.pids_lt, pids_nodup := hs.pids_nodup,
               holders_pids := hs.holders_pids, holder_le := hs.holder_le,
               unlocked_free := hs.unlocked_free }
      · dsimp only
        omega
      · dsimp only
        intro _
        omega
      · exact (List.pairwise_cons.mp hsort).2
      · intro p hp
        refine hs.queue_lt p ?_
        rw [hq]
        exact List.mem_cons_of_mem q hp
      · dsimp only
        simp only [List.length_append, List.length_cons, List.length_nil, herase, hlen]
  · simp only [serviceStep, if_neg hr]
    exact hs

theorem inv_close (s : ServiceState) (r pid : Nat) (ok : Bool) (now : Nat) (hs : Inv s) :
    Inv (serviceStep s (.close r pid ok now)).1 := by
  by_cases hg : (pid, r) ∈ s.holders ∨ ∀ item ∈ s.pagePool, item.pageId ≠ pid
  · simp only [serviceStep, if_pos hg]
    obtain ⟨a1, a2, a3, a4, a5, a6⟩ := closePage_adm s pid ok now
    by_cases hmem : s.pagePool.any (fun item => item.pageId == pid) = true
    · cases ok with
      | true =>
        have hpool := closePage_pool_member_ok s pid now hmem
        refine { act_le := ?_, queue_full := ?_, queue_sorted := ?_, queue_lt := ?_,
                 run_len := ?_, pool_le := ?_, pids_lt := ?_, pids_nodup := ?_,
                 holders_pids := ?_, holder_le := ?_, unlocked_free := ?_ }
        · dsimp only; rw [a1]; exact hs.act_le
        · dsimp only; rw [a1, a2]; exact hs.queue_full
        · dsimp only; rw [a2]; exact hs.queue_sorted
        · dsimp only; rw [a2, a5]; exact hs.queue_lt
        · dsimp only; rw [a1, a3]; exact hs.run_len
        · dsimp only; rw [hpool]; simpa using hs.pool_le
        · dsimp only; rw [hpool, pids_map_unlock, a6]; exact hs.pids_lt
        · dsimp only; rw [hpool, pids_map_unlock]; exact hs.pids_nodup
        · dsimp only
          rw [a4, hpool, pids_map_unlock]
          intro h hm
          exact hs.holders_pids h (List.mem_filter.mp hm).1
        · dsimp only
          rw [a4, hpool]
          intro item2 hm2
          obtain ⟨item0, h0, rfl⟩ := List.mem_map.mp hm2
          by_cases hx : (item0.pageId == pid) = true
          · have hpe : item0.pageId = pid := by simpa using hx
            rw [if_pos hx]
            show holderCount (s.holders.filter (fun h => h.1 ≠ pid)) item0.pageId ≤ 1
            rw [hpe, holderCount_filter_ne_self]
            exact Nat.zero_le 1
          · have hne : item0.pageId ≠ pid := by simpa using hx
            rw [if_neg hx]
            rw [holderCount_filter_ne_other _ _ _ hne]
            exact hs.holder_le item0 h0
        · dsimp only
          rw [a4, hpool]
          intro item2 hm2 hun
          obtain ⟨item0, h0, rfl⟩ := List.mem_map.mp hm2
          by_cases hx : (item0.pageId == pid) = true
          · have hpe : item0.pageId = pid := by simpa using hx
            rw [if_pos hx]
            show holderCount (s.holders.filter (fun h => h.1 ≠ pid)) item0.pageId = 0
            rw [hpe, holderCount_filter_ne_self]
          · have hne : item0.pageId ≠ pid := by simpa using hx
            rw [if_neg hx] at hun ⊢
            rw [holderCount_filter_ne_other _ _ _ hne]
            exact hs.unlocked_free item0 h0 hun
      | false =>
        have hpool := closePage_pool_member_fail s pid now hmem
        have hsub : ((closePage s pid false now).pagePool).Sublist s.pagePool := by
          rw [hpool]; exact removeFirstBy_sublist _ _
        refine { act_le := ?_, queue_full := ?_, queue_sorted := ?_, queue_lt := ?_,
                 run_len := ?_, pool_le := ?_, pids_lt := ?_, pids_nodup := ?_,
                 holders_pids := ?_, holder_le := ?_, unlocked_free := ?_ }
        · dsimp only; rw [a1]; exact hs.act_le
        · dsimp only; rw [a1, a2]; exact hs.queue_full
        · dsimp only; rw [a2]; exact hs.queue_sorted
        · dsimp only; rw [a2, a5]; exact hs.queue_lt
        · dsimp only; rw [a1, a3]; exact hs.run_len
        · dsimp only; exact le_trans hsub.length_le hs.pool_le
        · dsimp only; rw [a6]
          intro p hp
          exact hs.pids_lt p ((hsub.map PagePoolItem.pageId).subset hp)
        · dsimp only
          exact List.Nodup.sublist (hsub.map _) hs.pids_nodup
        · dsimp only
          rw [a4]
          intro h hm
          have hmem0 := (List.mem_filter.mp hm).1
          have hne : h.1 ≠ pid := by simpa using (List.mem_filter.mp hm).2
          obtain ⟨item0, h0, he⟩ := List.mem_map.mp (hs.holders_pids h hmem0)
          have hfalse : (fun item => item.pageId == pid) item0 = false := by
            simp only [beq_eq_false_iff_ne, ne_eq]
            rw [he]; exact hne
          rw [hpool]
          exact he ▸ List.mem_map_of_mem _ (mem_removeFirstBy_of_mem _ h0 hfalse)
        · dsimp only
          rw [a4]
          intro item2 hm2
          exact le_trans (holderCount_filter_le _ _ _) (hs.holder_le item2 (hsub.subset hm2))
        · dsimp only
          rw [a4]
          intro item2 hm2 hun
          exact Nat.le_zero.mp (le_trans (holderCount_filter_le _ _ _)
            (le_of_eq (hs.unlocked_free item2 (hsub.subset hm2) hun)))
    · have hpool := closePage_pool_nonmember s pid now ok hmem
      refine { act_le := ?_, queue_full := ?_, queue_sorted := ?_, queue_lt := ?_,
               run_len := ?_, pool_le := ?_, pids_lt := ?_, pids_nodup := ?_,
               holders_pids := ?_, holder_le := ?_, unlocked_free := ?_ }
      · dsimp only; rw [a1]; exact hs.act_le
      · dsimp only; rw [a1, a2]; exact hs.queue_full
      · dsimp only; rw [a2]; exact hs.queue_sorted
      · dsimp only; rw [a2, a5]; exact hs.queue_lt
      · dsimp only; rw [a1, a3]; exact hs.run_len
      · dsimp only; rw [hpool]; exact hs.pool_le
      · dsimp only; rw [hpool, a6]; exact hs.pids_lt
      · dsimp only; rw [hpool]; exact hs.pids_nodup
      · dsimp only
        rw [a4, hpool]
        intro h hm
        exact hs.holders_pids h (List.mem_filter.mp hm).1
      · dsimp only
        rw [a4, hpool]
        intro item2 hm2
        exact le_trans (holderCount_filter_le _ _ _) (hs.holder_le item2 hm2)
      · dsimp only
        rw [a4, hpool]
        intro item2 hm2 hun
        exact Nat.le_zero.mp (le_trans (holderCount_filter_le _ _ _)
          (le_of_eq (hs.unlocked_free item2 hm2 hun)))
  · simp only [serviceStep, if_neg hg]
    exact hs

theorem inv_cleanup (s : ServiceState) (now : Nat) (hs : Inv s) :
    Inv (serviceStep s (.cleanup now)).1 := by
  obtain ⟨a1, a2, a3, a4, a5, a6, a7⟩ := cleanupPagePool_spec now s
  simp only [serviceStep]
  refine { act_le := ?_, queue_full := ?_, queue_sorted := ?_, queue_lt := ?_,
           run_len := ?_, pool_le := ?_, pids_lt := ?_, pids_nodup := ?_,
           holders_pids := ?_, holder_le := ?_, unlocked_free := ?_ }
  · dsimp only; rw [a1]; exact hs.act_le
  · dsimp only; rw [a1, a2]; exact hs.queue_full
  · dsimp only; rw [a2]; exact hs.queue_sorted
  · dsimp only; rw [a2, a5]; exact hs.queue_lt
  · dsimp only; rw [a1, a3]; exact hs.run_len
  · dsimp only; exact le_trans a7.length_le hs.pool_le
  · dsimp only; rw [a6]
    intro p hp
    exact hs.pids_lt p ((a7.map PagePoolItem.pageId).subset hp)
  · dsimp only
    exact List.Nodup.sublist (a7.map _) hs.pids_nodup
  · dsimp only
    intro h hm
    have hpred := (List.mem_filter.mp hm).2
    obtain ⟨item, hitem, hbeq⟩ := List.any_eq_true.mp hpred
    have he : item.pageId = h.1 := by simpa using hbeq
    exact he ▸ List.mem_map_of_mem _ hitem
  · dsimp only
    rw [a4]
    intro item2 hm2
    exact le_trans (holderCount_filter_le _ _ _) (hs.holder_le item2 (a7.subset hm2))
  · dsimp only
    rw [a4]
    intro item2 hm2 hun
    exact Nat.le_zero.mp (le_trans (holderCount_filter_le _ _ _)
      (le_of_eq (hs.unlocked_free item2 (a7.subset hm2) hun)))

theorem inv_disconnect (s : ServiceState) (bid : Nat) (hs : Inv s) :
    Inv (serviceStep s (.disconnect bid)).1 := by
  simp only [serviceStep]
  exact { act_le := hs.act_le, queue_full := hs.queue_full, queue_sorted := hs.queue_sorted,
          queue_lt := hs.queue_lt, run_len := hs.run_len, pool_le := hs.pool_le,
          pids_lt := hs.pids_lt, pids_nodup := hs.pids_nodup,
          holders_pids := hs.holders_pids, holder_le := hs.holder_le,
          unlocked_free := hs.unlocked_free }

/-- Every reachable state satisfies the inductive invariant. -/
theorem reachable_inv {s : ServiceState} (h : Reachable s) : Inv s := by
  induction h with
  | init now => exact inv_init now
  | next s e _ ih =>
    cases e with
    | arrive => exact inv_arrive s ih
    | lockPooled r now => exact inv_lock s r now ih
    | create r now fuel => exact inv_create s r now fuel ih
    | finish r => exact inv_finish s r ih
    | close r pid ok now => exact inv_close s r pid ok now ih
    | cleanup now => exact inv_cleanup s now ih
    | disconnect bid => exact inv_disconnect s bid ih

/-- Whenever a step grants admission slots, every granted request arrived
strictly earlier than every request still pending after the step. -/
theorem grants_before_pending (s : ServiceState) (e : Ev) (hs : Inv s) :
    ∀ g ∈ (serviceStep s e).2, ∀ p ∈ (serviceStep s e).1.requestQueue, g < p := by
  cases e with
  | arrive =>
    by_cases h : maxConcurrentRequests ≤ s.activeRequests
    · simp [serviceStep, if_pos h]
    · simp only [serviceStep, if_neg h]
      intro g hg p hp
      have hq : s.requestQueue = [] := by
        by_contra hne
        exact h (le_of_eq (hs.queue_full hne).symm)
      rw [hq] at hp
      cases hp
  | lockPooled r now =>
    by_cases hr : r ∈ s.running
    · cases hLF : lockFirstAvailable now s.pagePool with
      | none => simp [serviceStep, getPooledPage, hLF, if_pos hr]
      | some v =>
        obtain ⟨pid, pool'⟩ := v
        simp [serviceStep, getPooledPage, hLF, if_pos hr]
    · simp [serviceStep, if_neg hr]
  | create r now fuel =>
    by_cases hr : r ∈ s.running
    · simp [serviceStep, if_pos hr]
    · simp [serviceStep, if_neg hr]
  | finish r =>
    by_cases hr : r ∈ s.running
    · cases hq : s.requestQueue with
      | nil => simp [serviceStep, if_pos hr, hq]
      | cons q qs =>
        have hact : s.activeRequests = maxConcurrentRequests :=
          hs.queue_full (by rw [hq]; exact List.cons_ne_nil q qs)
        have hlt : s.activeRequests - 1 < maxConcurrentRequests := by
          rw [hact]
          exact Nat.sub_lt maxConcurrentRequests_pos Nat.one_pos
        simp only [serviceStep, if_pos hr, hq, if_pos hlt]
        intro g hg p hp
        have hsort := hs.queue_sorted
        rw [hq] at hsort
        rw [List.mem_singleton.mp hg]
        exact (List.pairwise_cons.mp hsort).1 p hp
    · simp [serviceStep, if_neg hr]
  | close r pid ok now =>
    by_cases hg : (pid, r) ∈ s.holders ∨ ∀ item ∈ s.pagePool, item.pageId ≠ pid
    · simp [serviceStep, if_pos hg]
    · simp [serviceStep, if_neg hg]
  | cleanup now => simp [serviceStep]
  | disconnect bid => simp [serviceStep]

/-- When the pool is already full, createNewPage leaves the pool unchanged:
the insertion is guarded by pagePool.length < pagePoolSize. -/
theorem createNewPageFuel_pool_full (r now fuel : Nat) (s : ServiceState)
    (hfull : pagePoolSize ≤ s.pagePool.length) :
    (createNewPageFuel r now fuel s).2.pagePool = s.pagePool := by
  induction fuel generalizing s with
  | zero => rfl
  | succ n ih =>
    cases hsel : selectBestBrowser s.browsers with
    | none => simp [createNewPageFuel, hsel]
    | some best =>
      by_cases hcap : maxPagesPerBrowser ≤ best.activePages
      · simp only [createNewPageFuel, hsel, if_pos hcap]
        exact ih (replaceUnhealthyBrowser now s best) hfull
      · have hnlt : ¬ s.pagePool.length < pagePoolSize := Nat.not_lt.mpr hfull
        simp [createNewPageFuel, hsel, if_neg hcap, if_neg hnlt]

/-- Run a list of events from a state; used to build concrete reachable
states. -/
def runEvents (s : ServiceState) : List Ev → ServiceState
  | [] => s
  | e :: es => runEvents (serviceStep s e).1 es

theorem reachable_runEvents (s : ServiceState) (es : List Ev) (h : Reachable s) :
    Reachable (runEvents s es) := by
  induction es generalizing s with
  | nil => exact h
  | cons e es ih => exact ih _ (Reachable.next s e h)

/-! ### Concrete states used by counterexamples and witnesses -/

/-- A reachable state built by running eleven getPage arrivals (ten admitted,
the eleventh — arrival index 10 — queued at the ceiling) followed by request
0 creating a page: the pool holds page 0, locked by request 0, while
activeRequests sits at the ceiling with one request pending. -/
def fullLoadState : ServiceState :=
  runEvents (initialState 0)
    [.arrive, .arrive, .arrive, .arrive, .arrive, .arrive, .arrive, .arrive,
     .arrive, .arrive, .arrive, .create 0 1 1]

/-- A reachable state in which all three initial browsers have disconnected:
no healthy browser remains. -/
def noHealthyState : ServiceState :=
  runEvents (initialState 0) [.disconnect 0, .disconnect 1, .disconnect 2]

/-- Reset-failure scenario state: two connected browsers in iteration order
(id 1 with two active pages, id 2 with one), and the pooled, locked page 7
that was created by browser 2. -/
def resetFailCex : ServiceState :=
  { browsers := [{ id := 1, activePages := 2, createdAt := 0, lastUsed := 0,
                   isHealthy := true, isConnected := true },
                 { id := 2, activePages := 1, createdAt := 0, lastUsed := 0,
                   isHealthy := true, isConnected := true }],
    activeRequests := 1, requestQueue := [],
    pagePool := [{ pageId := 7, createdAt := 0, lastUsed := 0, isLocked := true }],
    pages := [{ pageId := 7, ownerBrowser := 2, closed := false }],
    running := [0], holders := [(7, 0)], nextId := 1, nextPage := 8, nextBrowser := 3 }

/-- Double-release scenario state: one connected browser with two active
pages, and the open page 9 it created, which is not a pool member. -/
def doubleReleaseCex : ServiceState :=
  { browsers := [{ id := 1, activePages := 2, createdAt := 0, lastUsed := 0,
                   isHealthy := true, isConnected := true }],
    activeRequests := 1, requestQueue := [], pagePool := [],
    pages := [{ pageId := 9, ownerBrowser := 1, closed := false }],
    running := [0], holders := [], nextId := 1, nextPage := 10, nextBrowser := 3 }

/-- A single browser at the maxPagesPerBrowser ceiling, for the
replace-and-retry scenario. -/
def retryCex : ServiceState :=
  { browsers := [{ id := 0, activePages := 8, createdAt := 0, lastUsed := 0,
                   isHealthy := true, isConnected := true }],
    activeRequests := 1, requestQueue := [], pagePool := [], pages := [],
    running := [0], holders := [], nextId := 1, nextPage := 0, nextBrowser := 1 }

/-- Browsers with a tie on the minimal activePages among the healthy ones:
the unhealthy id 1 is skipped, ids 2 and 3 tie at two active pages, id 2
comes first in iteration order. -/
def tieBrowsers : List BrowserInstance :=
  [{ id := 1, activePages := 0, createdAt := 0, lastUsed := 0,
     isHealthy := false, isConnected := false },
   { id := 2, activePages := 2, createdAt := 0, lastUsed := 0,
     isHealthy := true, isConnected := true },
   { id := 3, activePages := 2, createdAt := 0, lastUsed := 0,
     isHealthy := true, isConnected := true },
   { id := 4, activePages := 5, createdAt := 0, lastUsed := 0,
     isHealthy := true, isConnected := true }]

/-- The browser selected from tieBrowsers: the first of the two tied healthy
browsers. -/
def tieWinner : BrowserInstance :=
  { id := 2, activePages := 2, createdAt := 0, lastUsed := 0,
    isHealthy := true, isConnected := true }

/-! ### Claim C1 -/

/-- C1 counterexample: in the reachable state fullLoadState (activeRequests
at the ceiling 10, request 10 pending in the queue, page 0 held by request
0), releasing page 0 through closePage decrements nothing and wakes nobody:
activeRequests stays 10 and the queue still holds request 10, refuting the
claim that closePage releases the admission slot and wakes the next queued
acquirer. -/
theorem closePage_keeps_admission_state :
    Reachable fullLoadState ∧
    fullLoadState.activeRequests = 10 ∧
    fullLoadState.requestQueue = [10] ∧
    (closePage fullLoadState 0 true 2).activeRequests = 10 ∧
    (closePage fullLoadState 0 true 2).requestQueue = [10] :=
  ⟨reachable_runEvents _ _ (Reachable.init 0), by decide, by decide, by decide, by decide⟩

/-- C1 (amended): the admission slot is released in the finally block of
getPage when the acquisition attempt completes, not by closePage: closePage
leaves activeRequests and the pending queue unchanged, while the finish step
of a slot-holding request decrements activeRequests by one and, when the
queue is non-empty at the ceiling, grants the queue head (FIFO) keeping
activeRequests at the ceiling. -/
theorem admission_slot_release (s : ServiceState) (pid : Nat) (ok : Bool)
    (now r : Nat) (hr : r ∈ s.running) :
    ((closePage s pid ok now).activeRequests = s.activeRequests ∧
     (closePage s pid ok now).requestQueue = s.requestQueue) ∧
    (s.requestQueue = [] →
      (serviceStep s (.finish r)).1.activeRequests = s.activeRequests - 1) ∧
    (∀ q qs, s.requestQueue = q :: qs → s.activeRequests = maxConcurrentRequests →
      (serviceStep s (.finish r)).1.activeRequests = maxConcurrentRequests ∧
      (serviceStep s (.finish r)).1.requestQueue = qs ∧
      (serviceStep s (.finish r)).2 = [q]) := by
  obtain ⟨a1, a2, _, _, _, _⟩ := closePage_adm s pid ok now
  refine ⟨⟨a1, a2⟩, ?_, ?_⟩
  · intro hq
    simp [serviceStep, if_pos hr, hq]
  · intro q qs hq hact
    have hlt : s.activeRequests - 1 < maxConcurrentRequests := by
      rw [hact]
      exact Nat.sub_lt maxConcurrentRequests_pos Nat.one_pos
    have hpos := maxConcurrentRequests_pos
    simp only [serviceStep, if_pos hr, hq, if_pos hlt]
    refine ⟨?_, by trivial, by trivial⟩
    dsimp only
    omega

/-- Witness for the amended C1 theorem at the concrete reachable state
fullLoadState with request 0 holding a slot. -/
theorem admission_slot_release_witness :
    ((closePage fullLoadState 0 true 2).activeRequests = fullLoadState.activeRequests ∧
     (closePage fullLoadState 0 true 2).requestQueue = fullLoadState.requestQueue) ∧
    (fullLoadState.requestQueue = [] →
      (serviceStep fullLoadState (.finish 0)).1.activeRequests = fullLoadState.activeRequests - 1) ∧
    (∀ q qs, fullLoadState.requestQueue = q :: qs →
      fullLoadState.activeRequests = maxConcurrentRequests →
      (serviceStep fullLoadState (.finish 0)).1.activeRequests = maxConcurrentRequests ∧
      (serviceStep fullLoadState (.finish 0)).1.requestQueue = qs ∧
      (serviceStep fullLoadState (.finish 0)).2 = [q]) :=
  admission_slot_release fullLoadState 0 true 2 0 (by decide)

/-! ### Claim C2 -/

/-- C2: admission is strictly FIFO: in every reachable state the pending
queue lists requests in arrival order (strictly increasing arrival index),
and whenever any step grants slots, every request still pending afterwards
arrived strictly later than each granted request — so no request is granted
while an earlier-arrived request remains pending.  A woken request is granted
atomically inside the finish step (the source re-checks the ceiling in the
same synchronous segment), so it never re-enters the queue behind later
arrivals. -/
theorem admission_fifo (s : ServiceState) (e : Ev) (h : Reachable s) :
    s.requestQueue.Pairwise (· < ·) ∧
    ∀ g ∈ (serviceStep s e).2, ∀ p ∈ (serviceStep s e).1.requestQueue, g < p :=
  ⟨(reachable_inv h).queue_sorted, grants_before_pending s e (reachable_inv h)⟩

/-- Witness for the C2 theorem: the finish step of request 0 in fullLoadState
grants exactly the queued request 10. -/
theorem admission_fifo_witness :
    fullLoadState.requestQueue.Pairwise (· < ·) ∧
    ∀ g ∈ (serviceStep fullLoadState (.finish 0)).2,
      ∀ p ∈ (serviceStep fullLoadState (.finish 0)).1.requestQueue, g < p :=
  admission_fifo fullLoadState (.finish 0) (reachable_runEvents _ _ (Reachable.init 0))

/-! ### Claim C3 -/

/-- C3: in every reachable state activeRequests never exceeds
maxConcurrentRequests, and an arrival at the ceiling is enqueued instead of
taking a slot: activeRequests is unchanged, the arrival is appended to the
queue, and no slot is granted. -/
theorem admission_ceiling (s : ServiceState) (h : Reachable s) :
    s.activeRequests ≤ maxConcurrentRequests ∧
    (s.activeRequests = maxConcurrentRequests →
      (serviceStep s .arrive).1.activeRequests = s.activeRequests ∧
      (serviceStep s .arrive).1.requestQueue = s.requestQueue ++ [s.nextId] ∧
      (serviceStep s .arrive).2 = []) := by
  refine ⟨(reachable_inv h).act_le, ?_⟩
  intro hact
  have hc : maxConcurrentRequests ≤ s.activeRequests := le_of_eq hact.symm
  simp [serviceStep, if_pos hc]

/-- Witness for the C3 theorem at fullLoadState, where activeRequests equals
the ceiling. -/
theorem admission_ceiling_witness :
    fullLoadState.activeRequests ≤ maxConcurrentRequests ∧
    (fullLoadState.activeRequests = maxConcurrentRequests →
      (serviceStep fullLoadState .arrive).1.activeRequests = fullLoadState.activeRequests ∧
      (serviceStep fullLoadState .arrive).1.requestQueue =
        fullLoadState.requestQueue ++ [fullLoadState.nextId] ∧
      (serviceStep fullLoadState .arrive).2 = []) :=
  admission_ceiling fullLoadState (reachable_runEvents _ _ (Reachable.init 0))

/-! ### Claim C4 -/

/-- C4 (code bug): in resetFailCex, releasing the cached page 7 — created by
browser 2 — with a failing reset removes it from the pool, but the owning
browser 2 keeps activePages = 1 while the first connected browser 1 is
decremented twice (the close handler of configurePage and the explicit loop
of removePageFromPool both decrement the first connected browser), going
from 2 to 0: the owning worker is not decremented by exactly one. -/
theorem reset_failure_decrements_wrong_browser :
    (∃ p ∈ resetFailCex.pages, p.pageId = 7 ∧ p.ownerBrowser = 2) ∧
    resetFailCex.browsers.map (fun b => (b.id, b.activePages)) = [(1, 2), (2, 1)] ∧
    (closePage resetFailCex 7 false 5).pagePool = [] ∧
    (closePage resetFailCex 7 false 5).browsers.map
      (fun b => (b.id, b.activePages)) = [(1, 0), (2, 1)] ∧
    lockFirstAvailable 6 (closePage resetFailCex 7 false 5).pagePool = none := by
  decide

/-! ### Claim C5 -/

/-- C5 (code bug): a single closePage of the non-cached open page 9 already
decrements its owning (sole, first-connected) browser twice — the close
handler fires inside page.close() and the explicit loop decrements again —
taking activePages from 2 to 0; the second closePage is a no-op because the
page is closed.  The total decrement across the double release is two, not
at most one. -/
theorem double_release_double_decrements :
    doubleReleaseCex.browsers.map (fun b => b.activePages) = [2] ∧
    (closePage doubleReleaseCex 9 true 0).browsers.map (fun b => b.activePages) = [0] ∧
    (closePage (closePage doubleReleaseCex 9 true 0) 9 true 0).browsers.map
      (fun b => b.activePages) = [0] := by
  decide

/-! ### Claim C6 -/

/-- C6: when the cache miss selects a browser whose activePages has reached
maxPagesPerBrowser, createNewPage replaces that browser, retries selection
exactly once — the freshly created browser has zero active pages, so the
retried selection passes the capacity check — and returns a page whose
recorded retry count is exactly one. -/
theorem replace_and_retry_once (s : ServiceState) (r now : Nat) (b : BrowserInstance)
    (hsel : selectBestBrowser s.browsers = some b)
    (hcap : maxPagesPerBrowser ≤ b.activePages) :
    ∃ pid, (createNewPageFuel r now 2 s).1 = CreateOutcome.ok pid 1 := by
  simp only [createNewPageFuel, hsel, if_pos hcap]
  have hfreshmem : createBrowserInstance s.nextBrowser now ∈
      (replaceUnhealthyBrowser now s b).browsers :=
    List.mem_append_right _ (List.mem_cons_self _ _)
  obtain ⟨b2, hb2⟩ := selectBestBrowser_isSome _ _ hfreshmem rfl
  have hspec := selectBestBrowser_spec _ b2 hb2
  have hmin : b2.activePages ≤ (createBrowserInstance s.nextBrowser now).activePages :=
    hspec.2.2.1 _ hfreshmem rfl
  have hzero : b2.activePages = 0 := Nat.le_zero.mp hmin
  have hncap : ¬ maxPagesPerBrowser ≤ b2.activePages := by
    rw [hzero]
    decide
  simp only [createNewPageFuel, hb2, if_neg hncap]
  by_cases hlen : (replaceUnhealthyBrowser now s b).pagePool.length < pagePoolSize
  · simp only [if_pos hlen]
    exact ⟨(replaceUnhealthyBrowser now s b).nextPage, rfl⟩
  · simp only [if_neg hlen]
    exact ⟨(replaceUnhealthyBrowser now s b).nextPage, rfl⟩

/-- Witness for the C6 theorem: the single browser of retryCex is at the
ceiling of eight pages; with fuel two the call succeeds after exactly one
retry. -/
theorem replace_and_retry_once_witness :
    ∃ pid, (createNewPageFuel 0 5 2 retryCex).1 = CreateOutcome.ok pid 1 :=
  replace_and_retry_once retryCex 0 5
    { id := 0, activePages := 8, createdAt := 0, lastUsed := 0,
      isHealthy := true, isConnected := true } (by decide) (by decide)

/-! ### Claim C7 -/

/-- C7: selectBestBrowser returns a healthy browser whose activePages is
minimal among all healthy browsers, and on ties the first-encountered one in
iteration order: it is the first element of the healthy sublist whose
activePages does not exceed the minimum. -/
theorem select_min_healthy_first (bs : List BrowserInstance) (b : BrowserInstance)
    (h : selectBestBrowser bs = some b) :
    b.isHealthy = true ∧ b ∈ bs ∧
    (∀ c ∈ bs, c.isHealthy = true → b.activePages ≤ c.activePages) ∧
    (bs.filter (fun c => c.isHealthy)).find?
      (fun c => decide (c.activePages ≤ b.activePages)) = some b :=
  selectBestBrowser_spec bs b h

/-- Witness for the C7 theorem on tieBrowsers: the unhealthy browser 1 is
skipped and the tie between browsers 2 and 3 goes to the first-encountered
browser 2. -/
theorem select_min_healthy_first_witness :
    tieWinner.isHealthy = true ∧ tieWinner ∈ tieBrowsers ∧
    (∀ c ∈ tieBrowsers, c.isHealthy = true → tieWinner.activePages ≤ c.activePages) ∧
    (tieBrowsers.filter (fun c => c.isHealthy)).find?
      (fun c => decide (c.activePages ≤ tieWinner.activePages)) = some tieWinner :=
  select_min_healthy_first tieBrowsers tieWinner (by decide)

/-! ### Claim C8 -/

/-- C8: an acquire admitted while no healthy browser exists fails inside
createNewPage with the no-healthy-browser-instances error, leaving the state
untouched, and the finally block of getPage then releases the admission slot,
restoring activeRequests to its value before the failed acquire. -/
theorem no_healthy_failure_restores_slot (s : ServiceState) (r now fuel : Nat)
    (h : Reachable s) (hnone : selectBestBrowser s.browsers = none)
    (hroom : s.activeRequests < maxConcurrentRequests) :
    createNewPageFuel r now (fuel + 1) (serviceStep s .arrive).1 =
      (CreateOutcome.noHealthy 0, (serviceStep s .arrive).1) ∧
    (serviceStep (serviceStep s .arrive).1 (.finish s.nextId)).1.activeRequests
      = s.activeRequests := by
  have hq : s.requestQueue = [] := by
    by_contra hne
    rw [(reachable_inv h).queue_full hne] at hroom
    exact Nat.lt_irrefl _ hroom
  have hnotle : ¬ maxConcurrentRequests ≤ s.activeRequests := Nat.not_le.mpr hroom
  constructor
  · simp only [serviceStep, if_neg hnotle, createNewPageFuel]
    rw [show selectBestBrowser s.browsers = none from hnone]
  · have hmem : s.nextId ∈ s.running ++ [s.nextId] :=
      List.mem_append_right _ (List.mem_cons_self _ _)
    simp only [serviceStep, if_neg hnotle, if_pos hmem, hq]
    omega

/-- Witness for the C8 theorem: in noHealthyState all three browsers have
disconnected, so an admitted acquire fails and the slot count returns to
zero. -/
theorem no_healthy_failure_restores_slot_witness :
    createNewPageFuel 5 7 (0 + 1) (serviceStep noHealthyState .arrive).1 =
      (CreateOutcome.noHealthy 0, (serviceStep noHealthyState .arrive).1) ∧
    (serviceStep (serviceStep noHealthyState .arrive).1
        (.finish noHealthyState.nextId)).1.activeRequests
      = noHealthyState.activeRequests :=
  no_healthy_failure_restores_slot noHealthyState 5 7 0
    (reachable_runEvents _ _ (Reachable.init 0)) (by decide) (by decide)

/-! ### Claim C9 -/

/-- C9: in every reachable state the page pool never exceeds pagePoolSize;
when the pool is full, createNewPage does not insert the new page; and
releasing a page that is not a pool member leaves the pool unchanged (the
page is closed instead of growing the cache). -/
theorem pool_size_bound (s : ServiceState) (h : Reachable s)
    (r pid now fuel : Nat) (ok : Bool) :
    s.pagePool.length ≤ pagePoolSize ∧
    (pagePoolSize ≤ s.pagePool.length →
      (createNewPageFuel r now fuel s).2.pagePool = s.pagePool) ∧
    ((∀ item ∈ s.pagePool, item.pageId ≠ pid) →
      (closePage s pid ok now).pagePool = s.pagePool) := by
  refine ⟨(reachable_inv h).pool_le, ?_, ?_⟩
  · intro hfull
    exact createNewPageFuel_pool_full r now fuel s hfull
  · intro hne
    apply closePage_pool_nonmember
    intro hany
    obtain ⟨item, hitem, hbeq⟩ := List.any_eq_true.mp hany
    exact hne item hitem (by simpa using hbeq)

/-- Witness for the C9 theorem at fullLoadState (pool holds page 0; page 99
is not a member). -/
theorem pool_size_bound_witness :
    fullLoadState.pagePool.length ≤ pagePoolSize ∧
    (pagePoolSize ≤ fullLoadState.pagePool.length →
      (createNewPageFuel 3 4 1 fullLoadState).2.pagePool = fullLoadState.pagePool) ∧
    ((∀ item ∈ fullLoadState.pagePool, item.pageId ≠ 99) →
      (closePage fullLoadState 99 true 4).pagePool = fullLoadState.pagePool) :=
  pool_size_bound fullLoadState (reachable_runEvents _ _ (Reachable.init 0)) 3 99 4 1 true

/-! ### Claim C10 -/

/-- C10: the lock discipline gives exclusive handout: in every reachable
state each pool entry has at most one recorded holder, and an unlocked entry
has no holder at all — so an acquire, which only takes an entry whose locked
flag is false (and fresh) while setting it locked, and an insertion, which
enters the pool already locked by its creator, can never give one cache
entry to two concurrent holders. -/
theorem cache_entry_single_holder (s : ServiceState) (h : Reachable s) :
    ∀ item ∈ s.pagePool,
      holderCount s.holders item.pageId ≤ 1 ∧
      (item.isLocked = false → holderCount s.holders item.pageId = 0) := by
  intro item hm
  exact ⟨(reachable_inv h).holder_le item hm,
         fun hu => (reachable_inv h).unlocked_free item hm hu⟩

/-- Witness for the C10 theorem at fullLoadState, whose pool holds the locked
page 0 with its single holder: the theorem applied to that concrete entry
bounds its holder count by one. -/
theorem cache_entry_single_holder_witness :
    holderCount fullLoadState.holders 0 ≤ 1 :=
  (cache_entry_single_holder fullLoadState (reachable_runEvents _ _ (Reachable.init 0))
    { pageId := 0, createdAt := 1, lastUsed := 1, isLocked := true } (by decide)).1

end BrowserPool
